import Mathlib

/-!
Shallow embedding of the snake-game core from `snake.py` (single-file pygame
snake game).  Rendering, font and event-polling glue are external
collaborators and are not modelled; the simulation core (Snake, Food, Game
tick transition, keyboard command handling) is translated directly.

Python tuples `(x, y)` become `Int × Int`; the module-level settings become
constants; `random.choice(list(free))` is modelled by an injected index `k`
(the chosen element is `free[k % free.length]`), which ranges over every
choice the random source can make; the best-effort high-score file write
`save_high_score(score)` is modelled as an `Option Nat` effect returned by
`Game.update` (`some v` = the store was asked to save `v`, `none` = no save).
Floating-point `fps` is modelled over `ℚ` with `FPS_STEP = 1/5`.
-/

set_option maxRecDepth 100000

/-- Setting `GRID_W = 40` from the SETTINGS block. -/
def GRID_W : Nat := 40

/-- Setting `GRID_H = 30` from the SETTINGS block. -/
def GRID_H : Nat := 30

/-- Setting `FPS_START = 5` from the SETTINGS block. -/
def FPS_START : ℚ := 5

/-- Setting `FPS_STEP = 0.2` from the SETTINGS block. -/
def FPS_STEP : ℚ := 1/5

/-- A grid cell / direction vector: a Python `(x, y)` integer tuple. -/
abbrev Cell : Type := Int × Int

/-- State of the `Snake` object: `body`, `dir`, `dir_queue`, `grow`. -/
structure Snake where
  body : List Cell
  dir : Cell
  dir_queue : List Cell
  grow : Nat
  deriving DecidableEq, Repr

namespace Snake

/-- Method `Snake.reset`: body of three cells centred at `(GRID_W // 2, GRID_H // 2)`
heading right, empty queue, no growth credit. -/
def reset : Snake :=
  let start : Cell := ((GRID_W : Int) / 2, (GRID_H : Int) / 2)
  { body := [start, (start.1 - 1, start.2), (start.1 - 2, start.2)]
    dir := (1, 0)
    dir_queue := []
    grow := 0 }

/-- Method `Snake.set_dir(d)`: ignore `d` when the body is non-empty and `d` is the
componentwise negation of the active direction; otherwise append `d` to the
queue unless the queue's last entry already equals `d`. -/
def set_dir (s : Snake) (d : Cell) : Snake :=
  if s.body ≠ [] ∧ d.1 = -s.dir.1 ∧ d.2 = -s.dir.2 then s
  else if s.dir_queue = [] ∨ s.dir_queue.getLast? ≠ some d then
    { s with dir_queue := s.dir_queue ++ [d] }
  else s

/-- Method `Snake.step()`: dequeue one pending direction if any, prepend the new
head `old head + dir`, then either consume one growth credit or pop the
tail.  (`self.body[0]` on an empty body raises in Python; here `headI`
returns the default cell, and every theorem about `step` assumes a
non-empty body.) -/
def step (s : Snake) : Snake :=
  let s1 :=
    match s.dir_queue with
    | [] => s
    | d :: q => { s with dir := d, dir_queue := q }
  let head := s1.body.headI
  let new_head : Cell := (head.1 + s1.dir.1, head.2 + s1.dir.2)
  let body1 := new_head :: s1.body
  if s1.grow > 0 then
    { s1 with body := body1, grow := s1.grow - 1 }
  else
    { s1 with body := body1.dropLast }

/-- Method `Snake.hits_wall()`: head outside `[0, GRID_W) × [0, GRID_H)`. -/
def hits_wall (s : Snake) : Bool :=
  let h := s.body.headI
  decide (h.1 < 0) || decide ((GRID_W : Int) ≤ h.1) ||
    decide (h.2 < 0) || decide ((GRID_H : Int) ≤ h.2)

/-- Method `Snake.hits_self()`: `self.body[0] in self.body[1:]`. -/
def hits_self (s : Snake) : Bool :=
  s.body.tail.contains s.body.headI

end Snake

/-- The full grid `{(x, y) for x in range(GRID_W) for y in range(GRID_H)}`
as a list. -/
def allCells : List Cell :=
  (List.range GRID_W).flatMap fun (x : Nat) =>
    (List.range GRID_H).map fun (y : Nat) => (((x : Nat) : Int), ((y : Nat) : Int))

namespace Food

/-- The free set `all cells - set(snake.body)` of `Food._rand_pos`. -/
def freeCells (body : List Cell) : List Cell :=
  allCells.filter fun c => decide (c ∉ body)

/-- Method `Food._rand_pos(snake)`: `random.choice(list(free)) if free else None`,
with the random choice injected as an index `k` (reduced mod the size of
the free set). -/
def rand_pos (k : Nat) (s : Snake) : Option Cell :=
  if freeCells s.body = [] then none
  else (freeCells s.body)[k % (freeCells s.body).length]?

end Food

/-- State of the `Game` object: simulation fields only (`screen`, `clock`
and fonts are rendering collaborators).  `food` is `Food.pos`. -/
structure Game where
  snake : Snake
  food : Option Cell
  score : Nat
  high : Nat
  fps : ℚ
  paused : Bool
  game_over : Bool
  deriving DecidableEq, Repr

namespace Game

/-- Method `Game.reset()`: fresh snake, fresh food (randomness `k`), score 0,
`high = load_high_score()` (injected as `hs`), initial speed, not paused,
not game over. -/
def reset (hs k : Nat) : Game :=
  { snake := Snake.reset
    food := Food.rand_pos k Snake.reset
    score := 0
    high := hs
    fps := FPS_START
    paused := false
    game_over := false }

/-- Method `Game.update()`: the tick transition.  Returns the next state together
with the high-score save effect (`some v` iff `save_high_score(v)` was
invoked this tick).  `k` feeds `Food.respawn`'s random choice. -/
def update (g : Game) (k : Nat) : Game × Option Nat :=
  if g.paused || g.game_over then (g, none)
  else
    let s' := g.snake.step
    if s'.hits_wall || s'.hits_self then
      let g' := { g with snake := s', game_over := true }
      if g.score > g.high then (g', some g.score) else (g', none)
    else if some s'.body.headI = g.food then
      let s'' := { s' with grow := s'.grow + 1 }
      ({ g with snake := s''
                food := Food.rand_pos k s''
                score := g.score + 1
                fps := g.fps + FPS_STEP }, none)
    else
      ({ g with snake := s' }, none)

/-- The discrete keyboard commands `Game.handle_events` reacts to
(quit/ESC terminate the process and are not modelled). -/
inductive Cmd where
  | up | down | left | right | pauseKey | restartKey
  deriving DecidableEq, Repr

/-- The direction vector a command maps to in `handle_events`, if any. -/
def Cmd.dirOf : Cmd → Option Cell
  | .up => some (0, -1)
  | .down => some (0, 1)
  | .left => some (-1, 0)
  | .right => some (1, 0)
  | _ => none

/-- One `KEYDOWN` event of `Game.handle_events`: `P` toggles pause, `R`
restarts only when game over (`hs` = reloaded high score, `k` = food
randomness), arrow/WASD keys call `snake.set_dir` with no phase guard. -/
def handle_key (g : Game) (c : Cmd) (hs k : Nat) : Game :=
  match c with
  | .pauseKey => { g with paused := !g.paused }
  | .restartKey => if g.game_over then Game.reset hs k else g
  | .up => { g with snake := g.snake.set_dir (0, -1) }
  | .down => { g with snake := g.snake.set_dir (0, 1) }
  | .left => { g with snake := g.snake.set_dir (-1, 0) }
  | .right => { g with snake := g.snake.set_dir (1, 0) }

end Game

/-! ### Concrete states used to exercise the theorems -/

/-- The snake obtained from a fresh snake by requesting up then down in the
same frame (both accepted, since both are checked against the stale active
direction) and then performing one step. -/
def revSnake : Snake :=
  ((Snake.reset.set_dir (0, 1)).set_dir (0, -1)).step

/-- A snake whose head has left the grid on the left edge. -/
def wallSnake : Snake :=
  { body := [(-1, 0)], dir := (-1, 0), dir_queue := [], grow := 0 }

/-- A game sitting in the game-over phase. -/
def gOver : Game :=
  { snake := Snake.reset, food := some (0, 0), score := 4, high := 9
    fps := FPS_START, paused := false, game_over := true }

/-- A paused game. -/
def gPaused : Game :=
  { snake := Snake.reset, food := some (3, 3), score := 1, high := 0
    fps := FPS_START, paused := true, game_over := false }

/-- A playing game one tick away from driving into the right wall, with a
score above the stored high score. -/
def gWall : Game :=
  { snake := { body := [(39, 15), (38, 15)], dir := (1, 0), dir_queue := [], grow := 0 }
    food := some (0, 0), score := 5, high := 3
    fps := FPS_START, paused := false, game_over := false }

/-- A playing game one tick away from driving into the right wall (used for
the game-over body-preservation claim). -/
def gCrash : Game :=
  { snake := { body := [(39, 10), (38, 10)], dir := (1, 0), dir_queue := [], grow := 0 }
    food := some (0, 0), score := 0, high := 0
    fps := FPS_START, paused := false, game_over := false }

/-- A playing game whose snake will land exactly on the food this tick. -/
def gEat : Game :=
  { snake := { body := [(5, 5), (4, 5)], dir := (1, 0), dir_queue := [], grow := 0 }
    food := some (6, 5), score := 2, high := 7
    fps := FPS_START, paused := false, game_over := false }

/-! ### Helper lemmas -/

/-- A `step` with an empty pending queue keeps the active direction. -/
lemma step_dir_nil (s : Snake) (h : s.dir_queue = []) : s.step.dir = s.dir := by
  simp only [Snake.step, h]
  split <;> rfl

/-- A `step` with a non-empty pending queue activates the queue's front. -/
lemma step_dir_cons (s : Snake) (d : Cell) (q : List Cell)
    (h : s.dir_queue = d :: q) : s.step.dir = d := by
  simp only [Snake.step, h]
  split <;> rfl

/-- Membership in the full grid list. -/
lemma mem_allCells (c : Cell) :
    c ∈ allCells ↔ 0 ≤ c.1 ∧ c.1 < (GRID_W : Int) ∧ 0 ≤ c.2 ∧ c.2 < (GRID_H : Int) := by
  obtain ⟨cx, cy⟩ := c
  unfold allCells GRID_W GRID_H
  constructor
  · intro hmem
    rw [List.mem_flatMap] at hmem
    obtain ⟨x, hx, hmem2⟩ := hmem
    rw [List.mem_map] at hmem2
    obtain ⟨y, hy, hxy⟩ := hmem2
    rw [List.mem_range] at hx
    rw [List.mem_range] at hy
    injection hxy with h1 h2
    dsimp only
    omega
  · rintro ⟨h1, h2, h3, h4⟩
    dsimp only at h1 h2 h3 h4
    rw [List.mem_flatMap]
    refine ⟨cx.toNat, ?_, ?_⟩
    · rw [List.mem_range]; omega
    · rw [List.mem_map]
      refine ⟨cy.toNat, ?_, ?_⟩
      · rw [List.mem_range]; omega
      · rw [Prod.ext_iff]
        constructor <;> dsimp only <;> omega

/-- Membership in the free set: inside the grid and not on the snake. -/
lemma mem_freeCells (c : Cell) (body : List Cell) :
    c ∈ Food.freeCells body ↔
      0 ≤ c.1 ∧ c.1 < (GRID_W : Int) ∧ 0 ≤ c.2 ∧ c.2 < (GRID_H : Int) ∧ c ∉ body := by
  unfold Food.freeCells
  rw [List.mem_filter, mem_allCells]
  simp only [decide_eq_true_eq]
  tauto

/-- Lemma: `_rand_pos` returns `None` exactly when the free set is empty. -/
lemma rand_pos_none_iff (k : Nat) (s : Snake) :
    Food.rand_pos k s = none ↔ Food.freeCells s.body = [] := by
  unfold Food.rand_pos
  by_cases hfree : Food.freeCells s.body = []
  · rw [if_pos hfree]
    simp [hfree]
  · rw [if_neg hfree]
    have hlen : 0 < (Food.freeCells s.body).length :=
      List.length_pos.mpr hfree
    have hlt : k % (Food.freeCells s.body).length < (Food.freeCells s.body).length :=
      Nat.mod_lt _ hlen
    simp [List.getElem?_eq_getElem hlt, hfree]

/-- Whatever `_rand_pos` returns is a member of the free set. -/
lemma rand_pos_mem (k : Nat) (s : Snake) (c : Cell)
    (h : Food.rand_pos k s = some c) : c ∈ Food.freeCells s.body := by
  unfold Food.rand_pos at h
  by_cases hfree : Food.freeCells s.body = []
  · rw [if_pos hfree] at h
    exact Option.noConfusion h
  · rw [if_neg hfree] at h
    exact List.getElem?_mem h

/-! ### C1: step length and head behaviour -/

/-- C1: every `Snake.step` on a non-empty body prepends exactly one new head
equal to the old head plus the active (post-dequeue) direction; if the
growth credit was positive the length grows by one and the credit is
decremented, otherwise the tail cell is removed and the length is
unchanged. -/
theorem snake_step_spec (s : Snake) (hd : Cell) (tl : List Cell)
    (hb : s.body = hd :: tl) :
    s.step.body.head? = some (hd.1 + s.step.dir.1, hd.2 + s.step.dir.2) ∧
    (0 < s.grow →
      s.step.body.length = s.body.length + 1 ∧ s.step.grow = s.grow - 1 ∧
      s.step.body.tail = s.body) ∧
    (s.grow = 0 →
      s.step.body.length = s.body.length ∧ s.step.grow = 0 ∧
      s.step.body.tail = s.body.dropLast) := by
  obtain ⟨body, dir, queue, grow⟩ := s
  dsimp only at hb
  subst hb
  rcases queue with _ | ⟨d, q⟩ <;> by_cases hg : grow = 0 <;>
    simp [Snake.step, hg, Nat.pos_iff_ne_zero, List.headI]

/-- Evaluation of C1 on the initial snake: fresh snake, one step, head moves
one cell right, length stays 3. -/
theorem snake_step_spec_witness :
    Snake.reset.step.body.head? = some (21, 15) ∧
    Snake.reset.step.body.length = Snake.reset.body.length ∧
    Snake.reset.step.body.tail = Snake.reset.body.dropLast := by
  have h := snake_step_spec Snake.reset (20, 15) [(19, 15), (18, 15)] (by decide)
  exact ⟨h.1.trans (by decide), (h.2.2 (by decide)).1, (h.2.2 (by decide)).2.2⟩

/-! ### C7: set_dir policy -/

/-- C7: `set_dir d` is a no-op when `d` is the exact opposite of the active
direction (the check is against `dir`, not the queue tail); otherwise `d`
is appended exactly when the queue is empty or its last entry differs. -/
theorem set_dir_spec (s : Snake) (d : Cell) (hb : s.body ≠ []) :
    (d.1 = -s.dir.1 ∧ d.2 = -s.dir.2 → s.set_dir d = s) ∧
    (¬(d.1 = -s.dir.1 ∧ d.2 = -s.dir.2) →
      ((s.dir_queue = [] ∨ s.dir_queue.getLast? ≠ some d) →
        s.set_dir d = { s with dir_queue := s.dir_queue ++ [d] }) ∧
      (¬(s.dir_queue = [] ∨ s.dir_queue.getLast? ≠ some d) → s.set_dir d = s)) := by
  refine ⟨fun hopp => ?_, fun hopp => ⟨fun hq => ?_, fun hq => ?_⟩⟩
  · unfold Snake.set_dir
    rw [if_pos ⟨hb, hopp.1, hopp.2⟩]
  · unfold Snake.set_dir
    rw [if_neg (fun hcon => hopp ⟨hcon.2.1, hcon.2.2⟩), if_pos hq]
  · unfold Snake.set_dir
    rw [if_neg (fun hcon => hopp ⟨hcon.2.1, hcon.2.2⟩), if_neg hq]

/-- Evaluation of C7 on the initial snake: an upward request (not opposite
of the rightward heading, empty queue) is enqueued. -/
theorem set_dir_spec_witness :
    Snake.reset.set_dir (0, -1) =
      { Snake.reset with dir_queue := Snake.reset.dir_queue ++ [(0, -1)] } := by
  have h := set_dir_spec Snake.reset (0, -1) (by decide)
  exact (h.2 (by decide)).1 (Or.inl (by decide))

/-! ### C9: wall collision -/

/-- C9: `hits_wall` is true exactly when the head lies outside
`[0, GRID_W) × [0, GRID_H)`, independently of the rest of the body; in
particular a head with `x = -1`, `x = GRID_W`, `y = -1` or `y = GRID_H`
hits the wall. -/
theorem hits_wall_spec (s : Snake) (hd : Cell) (tl : List Cell)
    (hb : s.body = hd :: tl) :
    (s.hits_wall = true ↔
      ¬(0 ≤ hd.1 ∧ hd.1 < (GRID_W : Int) ∧ 0 ≤ hd.2 ∧ hd.2 < (GRID_H : Int))) ∧
    ((hd.1 = -1 ∨ hd.1 = (GRID_W : Int) ∨ hd.2 = -1 ∨ hd.2 = (GRID_H : Int)) →
      s.hits_wall = true) := by
  simp only [Snake.hits_wall, hb, List.headI, Bool.or_eq_true, decide_eq_true_eq]
  refine ⟨by omega, by omega⟩

/-- Evaluation of C9 on a snake whose head is one cell left of the grid. -/
theorem hits_wall_spec_witness : wallSnake.hits_wall = true := by
  have h := hits_wall_spec wallSnake (-1, 0) [] (by decide)
  exact h.2 (Or.inl (by decide))

/-! ### C8: food spawning -/

/-- C8: `_rand_pos` returns `None` iff every grid cell is occupied by the
snake; whenever it returns a cell, that cell is inside the grid and not on
the snake. -/
theorem rand_pos_spec (k : Nat) (s : Snake) :
    (Food.rand_pos k s = none ↔
      ∀ c : Cell, 0 ≤ c.1 → c.1 < (GRID_W : Int) → 0 ≤ c.2 → c.2 < (GRID_H : Int) →
        c ∈ s.body) ∧
    (∀ c : Cell, Food.rand_pos k s = some c →
      0 ≤ c.1 ∧ c.1 < (GRID_W : Int) ∧ 0 ≤ c.2 ∧ c.2 < (GRID_H : Int) ∧ c ∉ s.body) := by
  constructor
  · rw [rand_pos_none_iff, List.eq_nil_iff_forall_not_mem]
    constructor
    · intro h c h1 h2 h3 h4
      by_contra hmem
      exact h c ((mem_freeCells c s.body).mpr ⟨h1, h2, h3, h4, hmem⟩)
    · intro h c hmem
      rw [mem_freeCells] at hmem
      exact hmem.2.2.2.2 (h c hmem.1 hmem.2.1 hmem.2.2.1 hmem.2.2.2.1)
  · intro c hc
    exact (mem_freeCells c s.body).mp (rand_pos_mem k s c hc)

/-- Evaluation of C8: the first food choice for a fresh snake is a valid
free cell. -/
theorem rand_pos_spec_witness :
    Food.rand_pos 0 Snake.reset = some (0, 0) ∧
    (0 ≤ (((0, 0) : Cell)).1 ∧ (((0, 0) : Cell)).1 < (GRID_W : Int) ∧
      0 ≤ (((0, 0) : Cell)).2 ∧ (((0, 0) : Cell)).2 < (GRID_H : Int) ∧
      ((0, 0) : Cell) ∉ Snake.reset.body) :=
  ⟨by decide, (rand_pos_spec 0 Snake.reset).2 (0, 0) (by decide)⟩

/-! ### C2: direction reversal across a step -/

/-- C2 counterexample: from a fresh snake heading right, requesting up then
down in the same frame enqueues both (each is checked only against the
stale rightward active direction); after the first step the active
direction is up, and the very next step flips it to down — the exact
opposite of the active direction immediately before that step. -/
theorem dir_reversal_cex :
    revSnake.dir = (0, 1) ∧
    (Snake.step revSnake).dir = (-(revSnake.dir.1), -(revSnake.dir.2)) := by decide

/-- C2 amended: `set_dir` never enqueues the exact opposite of the direction
that is active at the moment of the call, so when at most one direction
request is pending (empty queue, then one `set_dir`, then `step`), the
active direction after the step is never the exact opposite of the active
direction before it.  With two stale requests queued before a step the
guarantee fails (see the counterexample). -/
theorem step_no_reversal_single_request (s : Snake) (d : Cell)
    (hb : s.body ≠ []) (hq : s.dir_queue = [])
    (hdir : ¬(s.dir.1 = -s.dir.1 ∧ s.dir.2 = -s.dir.2)) :
    (s.set_dir d).dir = s.dir ∧
    ¬((s.set_dir d).step.dir.1 = -s.dir.1 ∧ (s.set_dir d).step.dir.2 = -s.dir.2) := by
  have hdir_eq : (s.set_dir d).dir = s.dir := by
    unfold Snake.set_dir
    split_ifs <;> rfl
  refine ⟨hdir_eq, ?_⟩
  by_cases hopp : d.1 = -s.dir.1 ∧ d.2 = -s.dir.2
  · have hsd : s.set_dir d = s := by
      unfold Snake.set_dir
      rw [if_pos ⟨hb, hopp.1, hopp.2⟩]
    rw [hsd, step_dir_nil s hq]
    exact hdir
  · have hsd : s.set_dir d = { s with dir_queue := s.dir_queue ++ [d] } := by
      unfold Snake.set_dir
      rw [if_neg (fun hcon => hopp ⟨hcon.2.1, hcon.2.2⟩), if_pos (Or.inl hq)]
    have hq2 : ({ s with dir_queue := s.dir_queue ++ [d] } : Snake).dir_queue = d :: [] := by
      simp [hq]
    rw [hsd, step_dir_cons _ d [] hq2]
    exact hopp

/-- Evaluation of the amended C2 on a fresh snake with a single up
request. -/
theorem step_no_reversal_single_request_witness :
    (Snake.reset.set_dir (0, 1)).dir = Snake.reset.dir ∧
    ¬((Snake.reset.set_dir (0, 1)).step.dir.1 = -Snake.reset.dir.1 ∧
      (Snake.reset.set_dir (0, 1)).step.dir.2 = -Snake.reset.dir.2) :=
  step_no_reversal_single_request Snake.reset (0, 1) (by decide) (by decide) (by decide)

/-! ### C5: ticks are ignored while Paused or GameOver -/

/-- C5: a tick in a paused or game-over game changes nothing at all (and
performs no save). -/
theorem tick_ignored_not_playing (g : Game) (k : Nat)
    (h : g.paused = true ∨ g.game_over = true) :
    Game.update g k = (g, none) := by
  unfold Game.update
  rcases h with h | h <;> rw [h] <;> simp

/-- Evaluation of C5 on a concrete paused game. -/
theorem tick_ignored_not_playing_witness : Game.update gPaused 0 = (gPaused, none) :=
  tick_ignored_not_playing gPaused 0 (Or.inl (by decide))

/-! ### C6: direction input while Paused or GameOver -/

/-- C6 counterexample: in a game-over game with an empty pending queue, an
up command still mutates the pending direction queue — direction input is
not ignored outside Playing. -/
theorem dir_input_not_ignored_cex :
    gOver.game_over = true ∧ gOver.snake.dir_queue = [] ∧
    (Game.handle_key gOver Game.Cmd.up 0 0).snake.dir_queue = [(0, -1)] := by decide

/-- C6 amended: direction commands reach `set_dir` with no phase guard:
in every phase (Playing, Paused or GameOver alike) they mutate the snake
exactly as `set_dir` does, so stale turns can accumulate across a pause. -/
theorem dir_input_phase_independent (g : Game) (c : Game.Cmd) (d : Cell) (hs k : Nat)
    (h : c.dirOf = some d) :
    (Game.handle_key g c hs k).snake = g.snake.set_dir d ∧
    (Game.handle_key g c hs k).paused = g.paused ∧
    (Game.handle_key g c hs k).game_over = g.game_over := by
  cases c with
  | pauseKey => simp [Game.Cmd.dirOf] at h
  | restartKey => simp [Game.Cmd.dirOf] at h
  | up =>
    simp only [Game.Cmd.dirOf, Option.some.injEq] at h
    subst h
    exact ⟨rfl, rfl, rfl⟩
  | down =>
    simp only [Game.Cmd.dirOf, Option.some.injEq] at h
    subst h
    exact ⟨rfl, rfl, rfl⟩
  | left =>
    simp only [Game.Cmd.dirOf, Option.some.injEq] at h
    subst h
    exact ⟨rfl, rfl, rfl⟩
  | right =>
    simp only [Game.Cmd.dirOf, Option.some.injEq] at h
    subst h
    exact ⟨rfl, rfl, rfl⟩

/-- Evaluation of the amended C6: in the game-over game the up command acts
on the snake exactly as `set_dir` while leaving the phase alone. -/
theorem dir_input_phase_independent_witness :
    (Game.handle_key gOver Game.Cmd.up 0 0).snake = gOver.snake.set_dir (0, -1) ∧
    (Game.handle_key gOver Game.Cmd.up 0 0).game_over = gOver.game_over := by
  have h := dir_input_phase_independent gOver Game.Cmd.up (0, -1) 0 0 (by decide)
  exact ⟨h.1, h.2.2⟩

/-! ### C4: high-score persistence policy -/

/-- C4: a save effect happens only on the tick that transitions
Playing → GameOver with the current score strictly above the stored high
score, and it then saves exactly the current score; ticks that start in
GameOver change nothing and never save again. -/
theorem high_score_save_policy (g : Game) (k : Nat) :
    ((Game.update g k).2 ≠ none →
      g.paused = false ∧ g.game_over = false ∧ (Game.update g k).1.game_over = true ∧
      g.high < g.score ∧ (Game.update g k).2 = some g.score) ∧
    (g.game_over = true → Game.update g k = (g, none)) ∧
    (g.paused = false → g.game_over = false → (Game.update g k).1.game_over = true →
      g.high < g.score → (Game.update g k).2 = some g.score) := by
  cases hp : g.paused with
  | true =>
    have h5 : Game.update g k = (g, none) := by
      unfold Game.update
      rw [hp]
      simp
    rw [h5]
    refine ⟨fun hcon => absurd rfl hcon, fun _ => rfl, fun hpf _ _ _ => ?_⟩
    exact absurd hpf (by simp)
  | false =>
    cases hgo : g.game_over with
    | true =>
      have h5 : Game.update g k = (g, none) := by
        unfold Game.update
        rw [hgo]
        simp
      rw [h5]
      refine ⟨fun hcon => absurd rfl hcon, fun _ => rfl, fun _ hgof _ _ => ?_⟩
      exact absurd hgof (by simp)
    | false =>
      unfold Game.update
      rw [hp, hgo]
      simp only [Bool.or_self, Bool.false_eq_true, if_false]
      split_ifs with h1 h2 h3 <;> simp_all

/-- Evaluation of C4: driving into the wall with score 5 against stored
high 3 saves exactly the score. -/
theorem high_score_save_policy_witness :
    (Game.update gWall 0).2 = some gWall.score := by
  have h := high_score_save_policy gWall 0
  exact h.2.2 (by decide) (by decide) (by decide) (by decide)

/-! ### C10: the out-of-bounds head survives into GameOver -/

/-- C10: on a wall-collision tick the body is not rolled back — the phase
becomes GameOver with the stepped snake (including its out-of-bounds head)
kept verbatim, so a GameOver state contains an occupied cell outside the
grid bounds. -/
theorem wall_hit_not_rolled_back (g : Game) (k : Nat)
    (hp : g.paused = false) (hgo : g.game_over = false)
    (hw : g.snake.step.hits_wall = true) :
    (Game.update g k).1.game_over = true ∧
    (Game.update g k).1.snake = g.snake.step ∧
    ∃ c ∈ (Game.update g k).1.snake.body,
      ¬(0 ≤ c.1 ∧ c.1 < (GRID_W : Int) ∧ 0 ≤ c.2 ∧ c.2 < (GRID_H : Int)) := by
  have hne : g.snake.step.body ≠ [] := by
    intro h0
    have hdef : (([] : List Cell).headI) = ((0 : Int), (0 : Int)) := rfl
    simp only [Snake.hits_wall, h0, hdef] at hw
    simp [GRID_W, GRID_H] at hw
  obtain ⟨ch, ct, hbody⟩ : ∃ ch ct, g.snake.step.body = ch :: ct := by
    cases hx : g.snake.step.body with
    | nil => exact absurd hx hne
    | cons a l => exact ⟨a, l, rfl⟩
  have hoob : ¬(0 ≤ ch.1 ∧ ch.1 < (GRID_W : Int) ∧ 0 ≤ ch.2 ∧ ch.2 < (GRID_H : Int)) := by
    simp only [Snake.hits_wall, hbody, List.headI, Bool.or_eq_true, decide_eq_true_eq] at hw
    omega
  have hupd : (Game.update g k).1 = { g with snake := g.snake.step, game_over := true } := by
    unfold Game.update
    rw [hp, hgo]
    simp only [Bool.or_self, Bool.false_eq_true, if_false]
    split_ifs <;> simp_all
  refine ⟨by rw [hupd], by rw [hupd], ch, ?_, hoob⟩
  rw [hupd]
  show ch ∈ g.snake.step.body
  rw [hbody]
  exact List.mem_cons_self ch ct

/-- Evaluation of C10 on the game about to cross the right wall. -/
theorem wall_hit_not_rolled_back_witness :
    (Game.update gCrash 0).1.game_over = true ∧
    (Game.update gCrash 0).1.snake = gCrash.snake.step ∧
    ∃ c ∈ (Game.update gCrash 0).1.snake.body,
      ¬(0 ≤ c.1 ∧ c.1 < (GRID_W : Int) ∧ 0 ≤ c.2 ∧ c.2 < (GRID_H : Int)) :=
  wall_hit_not_rolled_back gCrash 0 (by decide) (by decide) (by decide)

/-! ### C3: effects of eating food -/

/-- C3: on a Playing tick with no collision where the stepped head lands on
the food, exactly these changes happen: score +1, fps +`FPS_STEP`, growth
credit +1, food respawned by `_rand_pos` on the post-step body (a free cell
whenever one exists); body, direction, queue, high score and phase are
untouched and no save fires. -/
theorem eat_food_spec (g : Game) (k : Nat) (f : Cell)
    (hp : g.paused = false) (hgo : g.game_over = false)
    (hw : g.snake.step.hits_wall = false) (hsf : g.snake.step.hits_self = false)
    (hfood : g.food = some f) (hhead : g.snake.step.body.headI = f) :
    (Game.update g k).1.score = g.score + 1 ∧
    (Game.update g k).1.fps = g.fps + FPS_STEP ∧
    (Game.update g k).1.snake.grow = g.snake.step.grow + 1 ∧
    (Game.update g k).1.snake.body = g.snake.step.body ∧
    (Game.update g k).1.snake.dir = g.snake.step.dir ∧
    (Game.update g k).1.snake.dir_queue = g.snake.step.dir_queue ∧
    (Game.update g k).1.high = g.high ∧
    (Game.update g k).1.paused = false ∧
    (Game.update g k).1.game_over = false ∧
    (Game.update g k).2 = none ∧
    (Game.update g k).1.food =
      Food.rand_pos k { g.snake.step with grow := g.snake.step.grow + 1 } ∧
    (Food.freeCells g.snake.step.body ≠ [] →
      ∃ c, (Game.update g k).1.food = some c ∧
        0 ≤ c.1 ∧ c.1 < (GRID_W : Int) ∧ 0 ≤ c.2 ∧ c.2 < (GRID_H : Int) ∧
        c ∉ (Game.update g k).1.snake.body) := by
  have hupd : Game.update g k =
      ({ g with snake := { g.snake.step with grow := g.snake.step.grow + 1 }
                food := Food.rand_pos k { g.snake.step with grow := g.snake.step.grow + 1 }
                score := g.score + 1
                fps := g.fps + FPS_STEP }, none) := by
    unfold Game.update
    rw [hp, hgo]
    simp only [Bool.or_self, Bool.false_eq_true, if_false]
    rw [hw, hsf]
    simp only [Bool.or_self, Bool.false_eq_true, if_false]
    rw [hhead, hfood, if_pos rfl]
  refine ⟨by rw [hupd], by rw [hupd], by rw [hupd], by rw [hupd], by rw [hupd],
    by rw [hupd], by rw [hupd], by rw [hupd]; exact hp, by rw [hupd]; exact hgo,
    by rw [hupd], by rw [hupd], ?_⟩
  intro hfree
  rcases hrp : Food.rand_pos k { g.snake.step with grow := g.snake.step.grow + 1 }
    with _ | c
  · exact absurd ((rand_pos_none_iff k _).mp hrp) hfree
  · have hmem := rand_pos_mem k _ c hrp
    rw [mem_freeCells] at hmem
    exact ⟨c, by rw [hupd]; exact hrp, hmem.1, hmem.2.1, hmem.2.2.1, hmem.2.2.2.1,
      by rw [hupd]; exact hmem.2.2.2.2⟩

/-- Evaluation of C3 on a concrete game eating its food: score goes from 2
to 3, no save fires, and the respawned food is a valid free cell. -/
theorem eat_food_spec_witness :
    (Game.update gEat 0).1.score = gEat.score + 1 ∧
    (Game.update gEat 0).2 = none ∧
    ∃ c, (Game.update gEat 0).1.food = some c ∧
      0 ≤ c.1 ∧ c.1 < (GRID_W : Int) ∧ 0 ≤ c.2 ∧ c.2 < (GRID_H : Int) ∧
      c ∉ (Game.update gEat 0).1.snake.body := by
  have h := eat_food_spec gEat 0 (6, 5) (by decide) (by decide) (by decide) (by decide)
    (by decide) (by decide)
  exact ⟨h.1, h.2.2.2.2.2.2.2.2.2.1, h.2.2.2.2.2.2.2.2.2.2.2 (by decide)⟩
